import Mathlib

/-!
Shallow embedding of the directory-listing subsystem of `unix-tools-go`
(`internal/ls/ls.go` together with `internal/ls/common.go`), and theorems
checking the natural-language specification of that subsystem.

Modelling conventions:
* Go compares strings byte-wise; on UTF-8 this agrees with lexicographic
  comparison of unicode code points, so Go string `<` is modelled by
  `goStrLt` on the code-point lists.
* `strings.ToLower` is applied rune by rune in Go; it is modelled per
  character (all names the rules distinguish are ASCII).
* Go `len(s)` counts bytes, modelled by `String.utf8ByteSize`.
* `sort.Slice` guarantees only that its output is a permutation of the input
  ordered by the comparator (it is not stable); `sortSliceSpec` captures
  exactly that contract, and `sortEntries` is a deterministic function
  satisfying it, used where `Run` needs a concrete listing order.
* Filesystem reads, `stat` results and identity lookups are inputs of the
  embedding (`FSResult`, `StatInfo`); standard output and standard error are
  modelled as the lists of lines printed to them.
-/

namespace LsTool

/-- Byte-order comparison of single characters (code points, as in Go). -/
def charLt (a b : Char) : Bool := decide (a.toNat < b.toNat)

/-- Lexicographic order on code-point lists: Go byte-wise string `<`. -/
def strLtB : List Char → List Char → Bool
  | [], [] => false
  | [], _ :: _ => true
  | _ :: _, [] => false
  | a :: as, b :: bs =>
    if charLt a b then true
    else if charLt b a then false
    else strLtB as bs

/-- Go string comparison `a < b` (byte-wise lexicographic). -/
def goStrLt (a b : String) : Bool := strLtB a.data b.data

/-- `strings.ToLower`, applied per character. -/
def goToLower (s : String) : String := String.mk (s.data.map Char.toLower)

/-- Helper for `goExt`: the suffix of the character list that starts at the
last dot, if any. -/
def extAux : List Char → Option (List Char)
  | [] => none
  | c :: cs =>
    match extAux cs with
    | some r => some r
    | none => if c = '.' then some (c :: cs) else none

/-- `filepath.Ext` on a bare file name (directory entries contain no path
separator): the suffix beginning at the final dot, `""` if there is none. -/
def goExt (s : String) : String :=
  match extAux s.data with
  | some r => String.mk r
  | none => ""

/-- Go `len` on a string counts UTF-8 bytes. -/
def goLen (s : String) : Nat := s.utf8ByteSize

/-- The icon returned by `getIcon` when the extension is not in the table. -/
def fallbackIcon : String := " "

/-- The icon `getFileNameWithIcon` gives every directory. -/
def dirIcon : String := " "

/-- The icon of the `go.mod` / `go.sum` exact-name rule. -/
def goModIcon : String := "󰟓 "

/-- The icon of the Docker exact-name rule. -/
def dockerIcon : String := " "

/-- The icon of the `cargo.toml` exact-name rule. -/
def cargoIcon : String := " "

/-- The icon of the `.github` / `.gitignore` exact-name rule. -/
def gitIcon : String := " "

/-- The icon of the `Makefile` exact-name rule. -/
def makefileIcon : String := " "

/-- The extension-to-icon table of `common.go` (`iconMap`), as an
association list (Go map lookup over distinct keys is order-independent). -/
def iconMap : List (String × String) := [
  (".md", "󰍔 "),
  (".txt", " "),
  (".doc", "󰈬 "),
  (".docx", "󰈬 "),
  (".pdf", " "),
  (".xls", "󰈛 "),
  (".xlsx", "󰈛 "),
  (".ppt", "󰈧 "),
  (".pptx", "󰈧 "),
  (".rtf", " "),
  (".odt", "󰈬 "),
  (".ods", "󰈛 "),
  (".odp", "󰈧 "),
  (".csv", " "),
  (".tsv", " "),
  (".html", " "),
  (".htm", " "),
  (".xml", "󰗀 "),
  (".xhtml", "󰗀 "),
  (".css", " "),
  (".js", " "),
  (".json", " "),
  (".php", " "),
  (".jsp", " "),
  (".java", " "),
  (".py", "󰌠 "),
  (".rb", "󰴭 "),
  (".cpp", "󰙲 "),
  (".c", " "),
  (".cs", " "),
  (".go", " "),
  (".swift", " "),
  (".kt", " "),
  (".sql", " "),
  (".db", " "),
  (".sqlite", " "),
  (".bak", "󰁯 "),
  (".log", "󱂅 "),
  (".sh", " "),
  (".bat", " "),
  (".ps1", " "),
  (".pl", " "),
  (".r", " "),
  (".jar", " "),
  (".war", " "),
  (".ear", " "),
  (".exe", "󰨡 "),
  (".dll", "󰨡 "),
  (".sys", "󰨡 "),
  (".msi", "󰨡 "),
  (".deb", " "),
  (".rpm", " "),
  (".apk", "󰀲 "),
  (".ipa", " "),
  (".iso", " "),
  (".img", "󰨣 "),
  (".bin", " "),
  (".cue", "󱔼"),
  (".vhd", "󰋊 "),
  (".vmdk", "󰋊 "),
  (".dmg", "󰋊 "),
  (".zip", "󰿺 "),
  (".rar", "󰿺 "),
  (".7z", "󰿺 "),
  (".tar", "󰿺 "),
  (".gz", "󰿺 "),
  (".bz2", "󰿺 "),
  (".xz", "󰿺 "),
  (".zst", "󰿺 "),
  (".cpio", "󰿺 "),
  (".mp3", "󱑽 "),
  (".wav", "󱑽 "),
  (".flac", "󱑽 "),
  (".aac", "󱑽 "),
  (".ogg", "󱑽 "),
  (".wma", "󱑽 "),
  (".m4a", "󱑽 "),
  (".aiff", "󱑽 "),
  (".avi", "󰈫 "),
  (".mp4", "󰈫 "),
  (".mkv", "󰈫 "),
  (".mov", "󰈫 "),
  (".wmv", "󰈫 "),
  (".flv", "󰈫 "),
  (".mpeg", "󰈫 "),
  (".mpg", "󰈫 "),
  (".m4v", "󰈫 "),
  (".3gp", "󰈫 "),
  (".3g2", "󰈫 "),
  (".swf", " "),
  (".vob", "󰈫 "),
  (".svg", "󰕠 "),
  (".png", " "),
  (".jpg", " "),
  (".jpeg", " "),
  (".gif", " "),
  (".bmp", " "),
  (".tiff", " "),
  (".ico", " "),
  (".heic", " "),
  (".psd", " "),
  (".ai", " "),
  (".sketch", "󰉼 "),
  (".xcf", " "),
  (".raw", "󱨏 "),
  (".cdr", "󰇞 "),
  (".tex", " "),
  (".cfg", " "),
  (".ini", " "),
  (".conf", " "),
  (".env", " "),
  (".cmd", ""),
  (".reg", " "),
  (".vcf", " "),
  (".ics", " "),
  (".mobi", " "),
  (".epub", " "),
  (".azw", " "),
  (".ttf", " "),
  (".otf", " "),
  (".fon", " "),
  (".mht", "󰖟 "),
  (".mhtml", "󰖟 "),
  (".part", "󱑢 "),
  (".tmp", " "),
  (".desktop", " "),
  (".service", " "),
  (".ko", " "),
  (".run", " ")]

/-- `getIcon` from `common.go`: look the extension up in `iconMap`, falling
back to the generic file icon. -/
def getIcon (ext : String) : String :=
  match iconMap.lookup ext with
  | some icon => icon
  | none => fallbackIcon

/-- The `(Name, IsDir)` view of `os.DirEntry` used by the classifier. -/
structure DirEntry where
  name : String
  isDir : Bool
deriving DecidableEq, Repr

/-- `getFileNameWithIcon` from `common.go`: directories always get the
directory icon; otherwise the exact-name cases of the switch are tried in
order, and the default case looks up the lowercased extension. -/
def getFileNameWithIcon (entry : DirEntry) : String :=
  if entry.isDir then dirIcon ++ entry.name
  else
    let ext := goToLower (goExt entry.name)
    if entry.name = "go.mod" ∨ entry.name = "go.sum" then
      goModIcon ++ entry.name
    else if entry.name = "Dockerfile" ∨ entry.name = "docker-compose.yml" ∨
        entry.name = ".dockerignore" then
      dockerIcon ++ entry.name
    else if entry.name = "cargo.toml" then
      cargoIcon ++ entry.name
    else if entry.name = ".github" ∨ entry.name = ".gitignore" then
      gitIcon ++ entry.name
    else if entry.name = "Makefile" then
      makefileIcon ++ entry.name
    else
      getIcon ext ++ entry.name

/-- The exact-name cases of the switch in `getFileNameWithIcon`, as a
declarative rule table (same conditions, same order, same icons). -/
def exactIcon (n : String) : Option String :=
  if n = "go.mod" ∨ n = "go.sum" then some goModIcon
  else if n = "Dockerfile" ∨ n = "docker-compose.yml" ∨ n = ".dockerignore" then
    some dockerIcon
  else if n = "cargo.toml" then some cargoIcon
  else if n = ".github" ∨ n = ".gitignore" then some gitIcon
  else if n = "Makefile" then some makefileIcon
  else none

/-- The file names the exact-name rules recognise. -/
def exactNames : List String :=
  ["go.mod", "go.sum", "Dockerfile", "docker-compose.yml", ".dockerignore",
   "cargo.toml", ".github", ".gitignore", "Makefile"]

/-- The comparator passed to `sort.Slice` in `Run`:
`strings.ToLower(entries[i].Name()) < strings.ToLower(entries[j].Name())`. -/
def lsLess (a b : String) : Bool := goStrLt (goToLower a) (goToLower b)

/-- The per-entry `stat` data `printDetailedEntry` consumes.  `sinceNs` is
`time.Since(info.ModTime())` in nanoseconds at the moment of rendering;
`modTimeHHMM` and `modTimeYear` are the two possible renderings of the
modification time (layouts `"Jan _2 15:04"` and `"Jan _2 2006"`);
`userName` / `groupName` are the results of `user.LookupId` /
`user.LookupGroupId` (`none` = lookup failed).  `permBits` is the 9-character
permission part of `Mode().Perm().String()`. -/
structure StatInfo where
  permBits : String
  nlink : Nat
  uid : Nat
  gid : Nat
  size : Int
  blocks : Int
  sinceNs : Int
  modTimeHHMM : String
  modTimeYear : String
  userName : Option String
  groupName : Option String
deriving DecidableEq, Repr

/-- Result of `entry.Info()`: the stat data, or the error's text. -/
inductive InfoResult where
  | ok (st : StatInfo)
  | err (cause : String)
deriving DecidableEq, Repr

/-- One entry as `Run` sees it. -/
structure EntryData where
  name : String
  isDir : Bool
  info : InfoResult
deriving DecidableEq, Repr

/-- The contract of Go `sort.Slice` with the `lsLess` comparator on names:
any permutation of the input with no adjacent-pair inversion.  `sort.Slice`
is documented as not stable, so nothing beyond this is guaranteed. -/
def sortSliceSpec (input output : List EntryData) : Prop :=
  output.Perm input ∧ output.Pairwise (fun a b => lsLess b.name a.name = false)

/-- Insertion of an entry into an already ordered list, placing it before
the first entry it compares strictly below. -/
def insertE : List EntryData → EntryData → List EntryData
  | [], e => [e]
  | x :: xs, e =>
    if lsLess e.name x.name then e :: x :: xs else x :: insertE xs e

/-- A deterministic sort satisfying `sortSliceSpec` (insertion sort, which
is also what Go's `sort.Slice` runs on slices of fewer than 12 elements),
standing in for `sort.Slice` inside `run`; the claims about `run` do not
depend on the order of tied entries. -/
def sortEntries : List EntryData → List EntryData
  | [] => []
  | e :: l => insertE (sortEntries l) e

/-- The six-month threshold (6 × 30 × 24 hours) in nanoseconds. -/
def thresholdNs : Int := 6 * 30 * 24 * 3600 * 1000000000

/-- The age test of `printDetailedEntry`:
`time.Since(info.ModTime()).Hours() > 6*30*24`, reduced to its exact
integer equivalent.  `Duration.Hours` computes, in IEEE-754 binary64,
`float64(d / Hour) + float64(d % Hour) / (60*60*1e9)`, where `d` is the
`int64` duration and `Hour = 3.6e12` nanoseconds.  Both integer-to-float
conversions are exact for every `int64` duration
(`|d / Hour| ≤ 2562047 < 2^53` and `|d % Hour| < 3.6e12 < 2^53`), and
`3.6e12 = 439453125 · 2^13` is itself representable, so the only inexact
steps are the division and the addition, each rounded to nearest, ties to
even.  Writing `h := d / Hour` and `r := d % Hour`:
* for `h ≥ 4321` the exact sum is at least `4321`, so the result is at
  least `4321 · (1 − 2^−53) > 4320` and the comparison holds; for
  `h ≤ 4319`, and likewise for every `d ≤ 0`, the exact sum is below
  `4320`, so the result is at most `4320.0` and the comparison fails;
* for `h = 4320` the rounded quotient `q` lies in `[0, 1]`, the doubles
  neighbouring `4320` differ by `2^−40`, and the significand of `4320`
  (`4320 · 2^40`) is even, so the tie at the midpoint rounds down: the sum
  exceeds `4320.0` exactly when `q > 2^−41`.  The significand of `2^−41`
  (`2^52`) is again even, so `q = RN(r / 3.6e12) > 2^−41` exactly when
  `r / 3.6e12` exceeds the midpoint `2^−41 + 2^−94`, i.e. when
  `r · 2^94 > 3.6e12 · (2^53 + 1) ≈ 1.637 · 2^94`, i.e. when `r ≥ 2`.
Hence the float comparison of the source holds exactly when the duration
exceeds the threshold by more than one nanosecond; an age of
`thresholdNs + 1` nanoseconds is absorbed by the rounding. -/
def olderThanSixMonths (sinceNs : Int) : Bool :=
  decide (thresholdNs + 1 < sinceNs)

/-- The time layout `printDetailedEntry` selects. -/
def timeFormat (sinceNs : Int) : String :=
  if olderThanSixMonths sinceNs then "Jan _2 2006" else "Jan _2 15:04"

/-- The rendered modification time: the member of `StatInfo` that matches
the selected layout. -/
def renderedTime (st : StatInfo) : String :=
  if olderThanSixMonths st.sinceNs then st.modTimeYear else st.modTimeHHMM

/-- The permissions column: `Mode().Perm().String()` with its first byte
replaced by `d` for directories and `-` otherwise. -/
def permString (e : EntryData) (st : StatInfo) : String :=
  (if e.isDir then "d" else "-") ++ st.permBits

/-- The owner column: the user name, or on lookup failure the numeric uid
printed in decimal (`usr = &user.User{Username: uid}`). -/
def ownerField (st : StatInfo) : String :=
  match st.userName with
  | some u => u
  | none => toString st.uid

/-- The group column, with the same fallback policy as `ownerField`. -/
def groupField (st : StatInfo) : String :=
  match st.groupName with
  | some g => g
  | none => toString st.gid

/-- `fmt` `%4d`: decimal, right-aligned in a field of at least 4. -/
def pad4 (n : Int) : String :=
  let s := toString n
  if s.length < 4 then String.mk (List.replicate (4 - s.length) ' ') ++ s else s

/-- `printDetailedEntry` from `ls.go`: on a failed `Info()` it prints the
per-entry error message (via `fmt.Printf`, hence on standard output) and
returns; otherwise it prints the detail line. -/
def printDetailedEntry (e : EntryData) : String :=
  match e.info with
  | .err cause => "ls: error reading file info for " ++ e.name ++ ": " ++ cause
  | .ok st =>
      permString e st ++ " " ++ toString st.nlink ++ " " ++ ownerField st ++ " "
        ++ groupField st ++ " " ++ pad4 st.size ++ " " ++ renderedTime st
        ++ " " ++ getFileNameWithIcon ⟨e.name, e.isDir⟩

/-- The 512-byte block count of an entry, when its `Info()` succeeded. -/
def entryBlocks (e : EntryData) : Option Int :=
  match e.info with
  | .ok st => some st.blocks
  | .err _ => none

/-- The accumulation loop of `printTotalBlocks` (`continue` on a failed
`Info()`). -/
def totalBlocks (entries : List EntryData) : Int :=
  entries.foldl
    (fun acc e =>
      match e.info with
      | .ok st => acc + st.blocks
      | .err _ => acc)
    0

/-- `printTotalBlocks`: `total <blocks/2>`; Go `int64` division truncates
toward zero, which is `Int.tdiv`. -/
def printTotalBlocks (entries : List EntryData) : String :=
  "total " ++ toString (Int.tdiv (totalBlocks entries) 2)

/-- The running maximum of rendered-name lengths in `printMultiColumn`
(`len(name)` counts bytes). -/
def maxLenOf (names : List String) : Nat :=
  names.foldl (fun m n => if goLen n > m then goLen n else m) 0

/-- Terminal-width probing in `printMultiColumn`: `none` models a failed
`term.GetSize`; a failure or a width below 20 falls back to 80. -/
def effectiveWidth (probe : Option Nat) : Nat :=
  match probe with
  | none => 80
  | some w => if w < 20 then 80 else w

/-- `colWidth := maxLen + 2`. -/
def colWidthOf (names : List String) : Nat := maxLenOf names + 2

/-- `cols := width / colWidth; if cols == 0 { cols = 1 }`. -/
def colsOf (names : List String) (probe : Option Nat) : Nat :=
  if effectiveWidth probe / colWidthOf names = 0 then 1
  else effectiveWidth probe / colWidthOf names

/-- `fmt` `%-*s`: left-aligned, right-padded with spaces to the given width
(never truncates; the width counts runes). -/
def goPadRight (w : Nat) (s : String) : String :=
  s ++ String.mk (List.replicate (w - s.length) ' ')

/-- Helper for `buildRows`, with an explicit fuel argument bounding the
number of rows (each step consumes at least one name, so a fuel equal to the
number of names suffices). -/
def buildRowsFuel : Nat → List String → Nat → List String
  | 0, _, _ => []
  | _, [], _ => []
  | fuel + 1, x :: xs, k =>
    String.join ((x :: xs).take (k + 1))
      :: buildRowsFuel fuel ((x :: xs).drop (k + 1)) k

/-- Rows of the column loop of `printMultiColumn`: a newline is emitted
after every `k + 1` names and after the final name.  The chunk size is
passed as `k + 1` so that it is always positive. -/
def buildRows (l : List String) (k : Nat) : List String :=
  buildRowsFuel l.length l k

/-- `printMultiColumn` as the list of lines it prints: every name is padded
to the column width, and rows hold `cols` names each.  An empty listing
prints nothing at all. -/
def printMultiColumn (names : List String) (probe : Option Nat) : List String :=
  buildRows (names.map (goPadRight (colWidthOf names))) (colsOf names probe - 1)

/-- Result of `os.ReadDir`: the entries, or the error's text. -/
inductive FSResult where
  | ok (entries : List EntryData)
  | accessError (cause : String)
deriving DecidableEq, Repr

/-- What a run prints, as lines per stream. -/
structure Output where
  stdout : List String
  stderr : List String
deriving DecidableEq, Repr

/-- `Run` from `ls.go` after flag parsing: read the directory (an access
failure prints one diagnostic to standard error and stops), sort, then
either print the long format (total line first, then one line per entry) or
the multi-column layout.  All listing output, including per-entry error
messages, goes to standard output. -/
def run (longFormat : Bool) (dir : String) (fs : FSResult)
    (probe : Option Nat) : Output :=
  match fs with
  | .accessError cause =>
      ⟨[], ["ls: cannot access '" ++ dir ++ "': " ++ cause]⟩
  | .ok entries =>
      let sorted := sortEntries entries
      if longFormat then
        ⟨printTotalBlocks sorted :: sorted.map printDetailedEntry, []⟩
      else
        ⟨printMultiColumn
          (sorted.map (fun e => getFileNameWithIcon ⟨e.name, e.isDir⟩)) probe, []⟩

/-- Two entries whose names differ only by case, already ordered with the
larger byte value first: a fixed point of the case-insensitive comparator. -/
def c1Pair : List EntryData :=
  [⟨"a.md", false, .err ""⟩, ⟨"A.md", false, .err ""⟩]

/-- The ordering claim C1 asserts for the sorter's output: strictly
ascending case-insensitive names, ties ordered by byte order. -/
def c1ClaimOrder (a b : EntryData) : Prop :=
  lsLess a.name b.name = true ∨
    (goToLower a.name = goToLower b.name ∧ goStrLt b.name a.name = false)

instance (a b : EntryData) : Decidable (c1ClaimOrder a b) := by
  unfold c1ClaimOrder
  infer_instance

/-- An unsorted input with distinct case-insensitive keys. -/
def c1In : List EntryData := [⟨"B", false, .err ""⟩, ⟨"a", false, .err ""⟩]

/-- The unique sorted arrangement of `c1In`. -/
def c1Out : List EntryData := [⟨"a", false, .err ""⟩, ⟨"B", false, .err ""⟩]

/-- Two entries whose `Info()` calls fail. -/
def c4Entries : List EntryData :=
  [⟨"f", false, .err "boom"⟩, ⟨"g", false, .err "oops"⟩]

/-- Stat data whose age sits exactly on the six-month threshold. -/
def c5Stat : StatInfo :=
  ⟨"rw-r--r--", 1, 1000, 1000, 42, 8, thresholdNs,
   "Apr 10 12:00", "Apr 10 2025", some "user", some "group"⟩

/-- An entry whose `Info()` call fails with cause `boom`. -/
def c7Entry : EntryData := ⟨"f", false, .err "boom"⟩

/-- Stat data with an unresolvable owner and group id 9999. -/
def c9Stat : StatInfo :=
  ⟨"rw-r--r--", 1, 9999, 9999, 5, 8, 0, "Jan  1 00:00", "Jan  1 1970",
   none, none⟩

/-- A regular file owned by the unresolvable id 9999. -/
def c9Entry : EntryData := ⟨"file.txt", false, .ok c9Stat⟩

/-! ### Order-theoretic facts about the byte-wise comparison -/

/-- Characters with the same code point are equal. -/
theorem char_toNat_inj {a b : Char} (h : a.toNat = b.toNat) : a = b := by
  rw [← Char.ofNat_toNat a, ← Char.ofNat_toNat b, h]

/-- Unfolding of the byte order on a pair of cons cells. -/
theorem strLtB_cons_iff (a b : Char) (as bs : List Char) :
    strLtB (a :: as) (b :: bs) = true ↔
      a.toNat < b.toNat ∨ (a.toNat = b.toNat ∧ strLtB as bs = true) := by
  rcases Nat.lt_trichotomy a.toNat b.toNat with h | h | h
  · simp [strLtB, charLt, h]
  · simp [strLtB, charLt, h]
  · simp [strLtB, charLt, h, Nat.lt_asymm h]
    omega

/-- Two code-point lists neither of which is below the other are equal. -/
theorem strLtB_antisymm :
    ∀ as bs : List Char, strLtB as bs = false → strLtB bs as = false →
      as = bs := by
  intro as
  induction as with
  | nil =>
    intro bs h1 _
    cases bs with
    | nil => rfl
    | cons b bs => simp [strLtB] at h1
  | cons a as ih =>
    intro bs h1 h2
    cases bs with
    | nil => simp [strLtB] at h2
    | cons b bs =>
      rw [Bool.eq_false_iff, Ne, strLtB_cons_iff] at h1 h2
      push_neg at h1 h2
      have hn : a.toNat = b.toNat := by omega
      have h1r : strLtB as bs = false :=
        Bool.eq_false_iff.mpr (h1.2 hn)
      have h2r : strLtB bs as = false :=
        Bool.eq_false_iff.mpr (h2.2 hn.symm)
      rw [char_toNat_inj hn, ih bs h1r h2r]

/-- The byte order is asymmetric. -/
theorem strLtB_asymm :
    ∀ as bs : List Char, strLtB as bs = true → strLtB bs as = false := by
  intro as
  induction as with
  | nil =>
    intro bs h1
    cases bs with
    | nil => simp [strLtB] at h1
    | cons b bs => simp [strLtB]
  | cons a as ih =>
    intro bs h1
    cases bs with
    | nil => simp [strLtB] at h1
    | cons b bs =>
      rw [strLtB_cons_iff] at h1
      rw [Bool.eq_false_iff, Ne, strLtB_cons_iff]
      push_neg
      constructor
      · omega
      · intro hba
        rcases h1 with h | ⟨heq, hrec⟩
        · omega
        · exact Bool.eq_false_iff.mp (ih bs hrec)

/-- The byte order is transitive. -/
theorem strLtB_trans :
    ∀ as bs cs : List Char, strLtB as bs = true → strLtB bs cs = true →
      strLtB as cs = true := by
  intro as
  induction as with
  | nil =>
    intro bs cs h1 h2
    cases bs with
    | nil => simp [strLtB] at h1
    | cons b bs =>
      cases cs with
      | nil => simp [strLtB] at h2
      | cons c cs => simp [strLtB]
  | cons a as ih =>
    intro bs cs h1 h2
    cases bs with
    | nil => simp [strLtB] at h1
    | cons b bs =>
      cases cs with
      | nil => simp [strLtB] at h2
      | cons c cs =>
        rw [strLtB_cons_iff] at h1 h2 ⊢
        rcases h1 with h1 | ⟨heq1, hr1⟩
        · rcases h2 with h2 | ⟨heq2, _⟩
          · exact Or.inl (by omega)
          · exact Or.inl (by omega)
        · rcases h2 with h2 | ⟨heq2, hr2⟩
          · exact Or.inl (by omega)
          · exact Or.inr ⟨by omega, ih bs cs hr1 hr2⟩

/-- Antisymmetry, at the level of Go strings. -/
theorem goStrLt_antisymm {a b : String}
    (h1 : goStrLt a b = false) (h2 : goStrLt b a = false) : a = b :=
  String.ext (strLtB_antisymm a.data b.data h1 h2)

/-- Two names neither of which compares below the other under the
case-insensitive comparator have equal lowercased forms. -/
theorem lsLess_antisymm {a b : String}
    (h1 : lsLess a b = false) (h2 : lsLess b a = false) :
    goToLower a = goToLower b :=
  goStrLt_antisymm h1 h2

/-- The case-insensitive comparator is asymmetric. -/
theorem lsLess_asymm {a b : String} (h : lsLess a b = true) :
    lsLess b a = false :=
  strLtB_asymm _ _ h

/-- The case-insensitive comparator is transitive. -/
theorem lsLess_trans {a b c : String} (h1 : lsLess a b = true)
    (h2 : lsLess b c = true) : lsLess a c = true :=
  strLtB_trans _ _ _ h1 h2

/-! ### The stand-in sort satisfies the `sort.Slice` contract -/

/-- Inserting an entry yields a permutation of consing it. -/
theorem insertE_perm :
    ∀ (l : List EntryData) (e : EntryData), (insertE l e).Perm (e :: l) := by
  intro l e
  induction l with
  | nil => simp [insertE]
  | cons x xs ih =>
    unfold insertE
    by_cases hc : lsLess e.name x.name = true
    · rw [if_pos hc]
    · rw [if_neg hc]
      exact (ih.cons x).trans (List.Perm.swap e x xs)

/-- The pairwise no-inversion property `sort.Slice` establishes. -/
def noInv (a b : EntryData) : Prop := lsLess b.name a.name = false

/-- Insertion preserves the no-inversion property. -/
theorem insertE_pairwise :
    ∀ (l : List EntryData) (e : EntryData), l.Pairwise noInv →
      (insertE l e).Pairwise noInv := by
  intro l e
  induction l with
  | nil => intro _; simp [insertE, noInv]
  | cons x xs ih =>
    intro hp
    rcases List.pairwise_cons.mp hp with ⟨hx, hxs⟩
    unfold insertE
    by_cases hc : lsLess e.name x.name = true
    · rw [if_pos hc]
      refine List.pairwise_cons.mpr ⟨?_, hp⟩
      intro y hy
      rcases List.mem_cons.mp hy with rfl | hy
      · exact lsLess_asymm hc
      · show lsLess y.name e.name = false
        cases hyx : lsLess y.name e.name
        · rfl
        · have : lsLess y.name x.name = true := lsLess_trans hyx hc
          rw [hx y hy] at this
          exact absurd this (by simp)
    · rw [if_neg hc]
      refine List.pairwise_cons.mpr ⟨?_, ih hxs⟩
      intro y hy
      have hy2 : y ∈ e :: xs := ((insertE_perm xs e).mem_iff).mp hy
      rcases List.mem_cons.mp hy2 with rfl | hy2
      · exact Bool.eq_false_iff.mpr hc
      · exact hx y hy2

/-- The stand-in sort permutes its input. -/
theorem sortEntries_perm :
    ∀ l : List EntryData, (sortEntries l).Perm l := by
  intro l
  induction l with
  | nil => simp [sortEntries]
  | cons e t ih =>
    exact (insertE_perm (sortEntries t) e).trans (ih.cons e)

/-- The stand-in sort establishes the no-inversion property. -/
theorem sortEntries_pairwise :
    ∀ l : List EntryData, (sortEntries l).Pairwise noInv := by
  intro l
  induction l with
  | nil => simp [sortEntries]
  | cons e t ih => exact insertE_pairwise (sortEntries t) e ih

/-- `sortEntries` is a valid implementation of `sort.Slice`. -/
theorem sortEntries_spec (l : List EntryData) :
    sortSliceSpec l (sortEntries l) :=
  ⟨sortEntries_perm l, sortEntries_pairwise l⟩

/-- Two orderings of the same entries, both without inversions, coincide
when the lowercased names are pairwise distinct. -/
theorem sorted_perm_eq :
    ∀ l₁ l₂ : List EntryData, l₁.Perm l₂ →
      l₁.Pairwise noInv → l₂.Pairwise noInv →
      l₁.Pairwise (fun a b => goToLower a.name ≠ goToLower b.name) →
      l₁ = l₂ := by
  intro l₁
  induction l₁ with
  | nil =>
    intro l₂ hperm _ _ _
    exact (hperm.symm.eq_nil).symm
  | cons a t₁ ih =>
    intro l₂ hperm hs1 hs2 hd
    cases l₂ with
    | nil => exact absurd hperm.eq_nil (by simp)
    | cons b t₂ =>
      have hab : a = b := by
        have ha2 : a ∈ b :: t₂ := hperm.subset (List.mem_cons_self a t₁)
        have hb1 : b ∈ a :: t₁ := hperm.symm.subset (List.mem_cons_self b t₂)
        rcases List.mem_cons.mp ha2 with h | ha2t
        · exact h
        rcases List.mem_cons.mp hb1 with h | hb1t
        · exact h.symm
        have r1 : lsLess b.name a.name = false :=
          (List.pairwise_cons.mp hs1).1 b hb1t
        have r2 : lsLess a.name b.name = false :=
          (List.pairwise_cons.mp hs2).1 a ha2t
        have hkey : goToLower a.name = goToLower b.name :=
          lsLess_antisymm r2 r1
        exact absurd hkey ((List.pairwise_cons.mp hd).1 b hb1t)
      subst hab
      rw [ih t₂ hperm.cons_inv (List.pairwise_cons.mp hs1).2
        (List.pairwise_cons.mp hs2).2 (List.pairwise_cons.mp hd).2]

/-! ### Classifier, block-count and time-format helper lemmas -/

/-- The switch of `getFileNameWithIcon` on a non-directory agrees with the
declarative rule list: exact-name rules first, then the extension table. -/
theorem getFileNameWithIcon_eq_match (n : String) :
    getFileNameWithIcon ⟨n, false⟩ =
      (match exactIcon n with
       | some ic => ic
       | none => getIcon (goToLower (goExt n))) ++ n := by
  simp only [getFileNameWithIcon, exactIcon]
  split_ifs <;> simp_all

/-- An exact-name rule fires exactly on byte-for-byte equality with one of
the nine special names. -/
theorem exactIcon_none_iff (n : String) :
    exactIcon n = none ↔ n ∉ exactNames := by
  unfold exactIcon exactNames
  split_ifs with h1 h2 h3 h4 h5
  · have hm : n ∈ ["go.mod", "go.sum", "Dockerfile", "docker-compose.yml",
        ".dockerignore", "cargo.toml", ".github", ".gitignore", "Makefile"] := by
      rcases h1 with h | h <;> simp [h]
    simp [hm]
  · have hm : n ∈ ["go.mod", "go.sum", "Dockerfile", "docker-compose.yml",
        ".dockerignore", "cargo.toml", ".github", ".gitignore", "Makefile"] := by
      rcases h2 with h | h | h <;> simp [h]
    simp [hm]
  · have hm : n ∈ ["go.mod", "go.sum", "Dockerfile", "docker-compose.yml",
        ".dockerignore", "cargo.toml", ".github", ".gitignore", "Makefile"] := by
      simp [h3]
    simp [hm]
  · have hm : n ∈ ["go.mod", "go.sum", "Dockerfile", "docker-compose.yml",
        ".dockerignore", "cargo.toml", ".github", ".gitignore", "Makefile"] := by
      rcases h4 with h | h <;> simp [h]
    simp [hm]
  · have hm : n ∈ ["go.mod", "go.sum", "Dockerfile", "docker-compose.yml",
        ".dockerignore", "cargo.toml", ".github", ".gitignore", "Makefile"] := by
      simp [h5]
    simp [hm]
  · simp only [List.mem_cons, List.not_mem_nil]
    tauto

/-- The block-accumulation loop computes the sum of the block counts of the
entries whose `Info()` succeeded. -/
theorem totalBlocks_aux :
    ∀ (l : List EntryData) (acc : Int),
      l.foldl
        (fun acc e =>
          match e.info with
          | .ok st => acc + st.blocks
          | .err _ => acc)
        acc = acc + (l.filterMap entryBlocks).sum := by
  intro l
  induction l with
  | nil => intro acc; simp
  | cons e t ih =>
    intro acc
    cases hinfo : e.info with
    | ok st =>
      simp only [List.foldl_cons, hinfo, List.filterMap_cons, entryBlocks]
      rw [ih]
      simp
      omega
    | err c =>
      simp only [List.foldl_cons, hinfo, List.filterMap_cons, entryBlocks]
      rw [ih]

/-- `totalBlocks` as a sum over the successfully stat-ed entries. -/
theorem totalBlocks_filterMap (l : List EntryData) :
    totalBlocks l = (l.filterMap entryBlocks).sum := by
  unfold totalBlocks
  rw [totalBlocks_aux]
  simp

/-- The age test as a proposition about the age in nanoseconds. -/
theorem olderThanSixMonths_iff (ns : Int) :
    olderThanSixMonths ns = true ↔ thresholdNs + 1 < ns := by
  unfold olderThanSixMonths
  exact decide_eq_true_iff

/-! ### The claims -/

/-- C1, counterexample: the list holding `a.md` then `A.md` is a valid
`sort.Slice` result for itself under the case-insensitive comparator (the
comparator regards the two names as equal), yet it violates the claimed
ordering, which demands the byte-smaller `A.md` first; `sort.Slice` is not
stable and applies no byte-order tie-break. -/
theorem C1_sorter_counterexample :
    sortSliceSpec c1Pair c1Pair ∧ ¬ c1Pair.Pairwise c1ClaimOrder := by
  constructor
  · constructor
    · decide
    · decide
  · decide

/-- C1, amended: every `sort.Slice` result orders the entries so that the
case-insensitive names ascend (ties, in some order); and when the
case-insensitive names are pairwise distinct the result is unique, hence
deterministic and total. -/
theorem C1_sorter_amended :
    ∀ input output : List EntryData, sortSliceSpec input output →
      output.Pairwise (fun a b =>
        lsLess a.name b.name = true ∨ goToLower a.name = goToLower b.name) ∧
      (input.Pairwise (fun a b => goToLower a.name ≠ goToLower b.name) →
        ∀ output2 : List EntryData, sortSliceSpec input output2 →
          output = output2) := by
  intro input output h
  constructor
  · refine h.2.imp ?_
    intro a b hab
    cases hlt : lsLess a.name b.name
    · exact Or.inr (lsLess_antisymm hlt hab)
    · exact Or.inl rfl
  · intro hd output2 h2
    have hperm : output.Perm output2 := h.1.trans h2.1.symm
    have hsymm : ∀ {x y : EntryData},
        goToLower x.name ≠ goToLower y.name →
        goToLower y.name ≠ goToLower x.name := fun hne he => hne he.symm
    have hd_out : output.Pairwise
        (fun a b => goToLower a.name ≠ goToLower b.name) :=
      (h.1.pairwise_iff hsymm).mpr hd
    exact sorted_perm_eq output output2 hperm h.2 h2.2 hd_out

/-- C1, witness for the amended theorem at a concrete unsorted input with
distinct case-insensitive keys. -/
theorem C1_sorter_amended_witness :
    c1Out.Pairwise (fun a b =>
      lsLess a.name b.name = true ∨ goToLower a.name = goToLower b.name) ∧
    c1Out = c1Out := by
  have h := C1_sorter_amended c1In c1Out (by constructor <;> decide)
  exact ⟨h.1, h.2 (by decide) c1Out (by constructor <;> decide)⟩

/-- C2: icon classification is a function of `(name, isDir)` evaluated with
the directory check first (a directory always gets the directory icon, even
when its name contains a dot), then the exact-name rules, then the
lowercased-extension table, and finally the generic fallback icon. -/
theorem C2_classifier_priority :
    ∀ e : DirEntry,
      (e.isDir = true → getFileNameWithIcon e = dirIcon ++ e.name) ∧
      (e.isDir = false →
        getFileNameWithIcon e =
          (match exactIcon e.name with
           | some ic => ic
           | none => getIcon (goToLower (goExt e.name))) ++ e.name) ∧
      (e.isDir = false → exactIcon e.name = none →
        iconMap.lookup (goToLower (goExt e.name)) = none →
        getFileNameWithIcon e = fallbackIcon ++ e.name) := by
  intro e
  obtain ⟨n, d⟩ := e
  refine ⟨?_, ?_, ?_⟩
  · intro h
    subst h
    simp [getFileNameWithIcon]
  · intro h
    subst h
    exact getFileNameWithIcon_eq_match n
  · intro h h1 h2
    subst h
    rw [getFileNameWithIcon_eq_match n, h1]
    show getIcon (goToLower (goExt n)) ++ n = fallbackIcon ++ n
    unfold getIcon
    rw [h2]

/-- C2, witness: a directory named `v1.2` still gets the directory icon,
the exact rule beats the extension table on `cargo.toml`, and an unknown
extension falls back to the generic icon. -/
theorem C2_classifier_priority_witness :
    getFileNameWithIcon ⟨"v1.2", true⟩ = dirIcon ++ "v1.2" ∧
    getFileNameWithIcon ⟨"cargo.toml", false⟩ = cargoIcon ++ "cargo.toml" ∧
    getFileNameWithIcon ⟨"zzz.unknown", false⟩ = fallbackIcon ++ "zzz.unknown" := by
  refine ⟨(C2_classifier_priority ⟨"v1.2", true⟩).1 rfl, ?_, ?_⟩
  · exact ((C2_classifier_priority ⟨"cargo.toml", false⟩).2.1 rfl).trans (by decide)
  · exact (C2_classifier_priority ⟨"zzz.unknown", false⟩).2.2 rfl (by decide) (by decide)

/-- C3: the compact layout uses width 80 when probing fails or the probed
width is below 20, and the probed width otherwise; the column width is the
longest rendered name plus 2; the column count is the floored quotient with
a floor of one; and width 80 with longest name 10 gives 6 columns. -/
theorem C3_layout_columns :
    ∀ (names : List String) (probe : Option Nat), names ≠ [] →
      effectiveWidth none = 80 ∧
      (∀ w, w < 20 → effectiveWidth (some w) = 80) ∧
      (∀ w, 20 ≤ w → effectiveWidth (some w) = w) ∧
      colWidthOf names = maxLenOf names + 2 ∧
      colsOf names probe = max 1 (effectiveWidth probe / colWidthOf names) ∧
      (maxLenOf names = 10 → effectiveWidth probe = 80 →
        colsOf names probe = 6) := by
  intro names probe _
  refine ⟨rfl, ?_, ?_, rfl, ?_, ?_⟩
  · intro w h
    simp [effectiveWidth, h]
  · intro w h
    simp [effectiveWidth, Nat.not_lt.mpr h]
  · unfold colsOf
    rcases Nat.eq_zero_or_pos (effectiveWidth probe / colWidthOf names) with h | h
    · rw [if_pos h, h]
      decide
    · rw [if_neg (Nat.pos_iff_ne_zero.mp h)]
      exact (max_eq_right h).symm
  · intro h1 h2
    unfold colsOf colWidthOf
    rw [h1, h2]
    decide

/-- C3, witness: ten one-byte characters per name, probing failed. -/
theorem C3_layout_columns_witness :
    colsOf ["abcdefghij"] none = 6 ∧ effectiveWidth (some 15) = 80 := by
  have h := C3_layout_columns ["abcdefghij"] none (by decide)
  exact ⟨h.2.2.2.2.2 (by decide) rfl, h.2.1 15 (by decide)⟩

/-- C4: a directory-access failure prints one diagnostic to standard error
and no listing at all; in long format every entry contributes exactly one
line to standard output whatever its per-entry failures, so the output has
one line per entry plus the total line and no entry aborts the others. -/
theorem C4_failure_containment :
    ∀ (lf : Bool) (dir cause : String) (entries : List EntryData)
      (probe : Option Nat),
      (run lf dir (.accessError cause) probe).stdout = [] ∧
      (run lf dir (.accessError cause) probe).stderr =
        ["ls: cannot access '" ++ dir ++ "': " ++ cause] ∧
      (run true dir (.ok entries) probe).stdout.length = entries.length + 1 ∧
      (∀ e ∈ entries,
        printDetailedEntry e ∈ (run true dir (.ok entries) probe).stdout) ∧
      (run true dir (.ok entries) probe).stderr = [] := by
  intro lf dir cause entries probe
  refine ⟨rfl, rfl, ?_, ?_, rfl⟩
  · show (printTotalBlocks (sortEntries entries)
      :: (sortEntries entries).map printDetailedEntry).length = entries.length + 1
    rw [List.length_cons, List.length_map, (sortEntries_perm entries).length_eq]
  · intro e he
    have h1 : e ∈ sortEntries entries :=
      ((sortEntries_perm entries).mem_iff).mpr he
    exact List.mem_cons_of_mem _ (List.mem_map_of_mem printDetailedEntry h1)

/-- C4, witness: two entries whose stat fails still both get their line, and
an access error yields no listing. -/
theorem C4_failure_containment_witness :
    (run true "." (.ok c4Entries) none).stdout.length = c4Entries.length + 1 ∧
    printDetailedEntry ⟨"g", false, .err "oops"⟩ ∈
      (run true "." (.ok c4Entries) none).stdout ∧
    (run true "." (.accessError "permission denied") none).stdout = [] := by
  have h := C4_failure_containment true "." "permission denied" c4Entries none
  exact ⟨h.2.2.1, h.2.2.2.1 _ (by decide), h.1⟩

/-- C5, counterexample: a modification time one nanosecond older than the
6 × 30 × 24 hour threshold is strictly older than the threshold, yet the
program renders it with the hour-and-minute layout, not the year layout:
`Duration.Hours` returns exactly `4320.0` there (the fractional
nanosecond is below half an ulp of `4320`), so the strict float comparison
fails. -/
theorem C5_time_counterexample :
    thresholdNs < thresholdNs + 1 ∧
    timeFormat (thresholdNs + 1) = "Jan _2 15:04" ∧
    "Jan _2 15:04" ≠ "Jan _2 2006" := by
  refine ⟨by decide, by decide, by decide⟩

/-- C5, amended: the modification time is rendered in two modes relative to
the moment of rendering; an age of more than one nanosecond past the
6 × 30 × 24 hour threshold renders as the year layout, while an age at or
within the threshold — or exactly one nanosecond past it, which binary64
rounding of `Duration.Hours` absorbs — renders as the hour-and-minute
layout. -/
theorem C5_time_threshold_amended :
    ∀ (ns : Int) (st : StatInfo),
      (thresholdNs + 1 < ns → timeFormat ns = "Jan _2 2006") ∧
      (ns ≤ thresholdNs + 1 → timeFormat ns = "Jan _2 15:04") ∧
      (thresholdNs + 1 < st.sinceNs → renderedTime st = st.modTimeYear) ∧
      (st.sinceNs ≤ thresholdNs + 1 → renderedTime st = st.modTimeHHMM) := by
  intro ns st
  refine ⟨?_, ?_, ?_, ?_⟩ <;> intro h
  · unfold timeFormat
    rw [if_pos ((olderThanSixMonths_iff ns).mpr h)]
  · unfold timeFormat
    rw [if_neg (fun hc => absurd ((olderThanSixMonths_iff ns).mp hc)
      (not_lt.mpr h))]
  · unfold renderedTime
    rw [if_pos ((olderThanSixMonths_iff st.sinceNs).mpr h)]
  · unfold renderedTime
    rw [if_neg (fun hc => absurd ((olderThanSixMonths_iff st.sinceNs).mp hc)
      (not_lt.mpr h))]

/-- C5, witness for the amended theorem: two nanoseconds past the threshold
selects the year layout; the threshold itself — the boundary case — selects
the hour-and-minute layout, also for a concrete entry sitting exactly on
the boundary. -/
theorem C5_time_threshold_amended_witness :
    timeFormat (thresholdNs + 2) = "Jan _2 2006" ∧
    timeFormat thresholdNs = "Jan _2 15:04" ∧
    renderedTime c5Stat = "Apr 10 12:00" := by
  refine ⟨(C5_time_threshold_amended (thresholdNs + 2) c5Stat).1 (by decide),
    (C5_time_threshold_amended thresholdNs c5Stat).2.1 (by decide), ?_⟩
  exact (C5_time_threshold_amended 0 c5Stat).2.2.2 (by decide)

/-- C6: the `total` header line of the long format equals `total ` followed
by the sum of the 512-byte block counts of exactly the entries whose stat
succeeded, divided by two (truncated, as Go divides `int64`), and it is the
first line printed. -/
theorem C6_total_blocks :
    ∀ (entries : List EntryData) (dir : String) (probe : Option Nat),
      printTotalBlocks (sortEntries entries) =
        "total " ++ toString (Int.tdiv (entries.filterMap entryBlocks).sum 2) ∧
      (run true dir (.ok entries) probe).stdout.head? =
        some (printTotalBlocks (sortEntries entries)) := by
  intro entries dir probe
  constructor
  · unfold printTotalBlocks
    rw [totalBlocks_filterMap,
      ((sortEntries_perm entries).filterMap entryBlocks).sum_eq]
  · rfl

/-- C7, counterexample: an entry whose stat fails has its diagnostic
printed on standard output (the code uses `fmt.Printf`), with standard
error left empty — refuting the claim that all diagnostics go to standard
error. -/
theorem C7_streams_counterexample :
    (run true "." (.ok [c7Entry]) none).stderr = [] ∧
    printDetailedEntry c7Entry = "ls: error reading file info for f: boom" ∧
    printDetailedEntry c7Entry ∈ (run true "." (.ok [c7Entry]) none).stdout := by
  refine ⟨rfl, rfl, ?_⟩
  decide

/-- C7, amended: the top-level directory-access diagnostic is the only text
written to standard error; listing output and the per-entry
metadata-failure messages are written to standard output. -/
theorem C7_streams_amended :
    ∀ (lf : Bool) (dir cause : String) (entries : List EntryData)
      (probe : Option Nat),
      (run lf dir (.accessError cause) probe).stderr =
        ["ls: cannot access '" ++ dir ++ "': " ++ cause] ∧
      (run lf dir (.accessError cause) probe).stdout = [] ∧
      (run lf dir (.ok entries) probe).stderr = [] := by
  intro lf dir cause entries probe
  refine ⟨rfl, rfl, ?_⟩
  cases lf <;> rfl

set_option maxRecDepth 16000 in
/-- C8: for non-directories, extension rules match case-insensitively (the
extension is lowercased before the lookup, and every table key is already
lowercase, so two names with case-variant extensions get the same icon),
while the exact-name rules fire only on byte-for-byte equality with one of
the nine special names. -/
theorem C8_case_sensitivity :
    ∀ a b : String,
      (a ∉ exactNames →
        getFileNameWithIcon ⟨a, false⟩ = getIcon (goToLower (goExt a)) ++ a) ∧
      (a ∉ exactNames → b ∉ exactNames →
        goToLower (goExt a) = goToLower (goExt b) →
        ∃ ic, getFileNameWithIcon ⟨a, false⟩ = ic ++ a ∧
          getFileNameWithIcon ⟨b, false⟩ = ic ++ b) ∧
      (∀ p ∈ iconMap, goToLower p.1 = p.1) ∧
      (exactIcon a = none ↔ a ∉ exactNames) := by
  intro a b
  have key : ∀ n : String, n ∉ exactNames →
      getFileNameWithIcon ⟨n, false⟩ = getIcon (goToLower (goExt n)) ++ n := by
    intro n hn
    rw [getFileNameWithIcon_eq_match n, (exactIcon_none_iff n).mpr hn]
  refine ⟨key a, ?_, ?_, exactIcon_none_iff a⟩
  · intro ha hb hext
    exact ⟨getIcon (goToLower (goExt a)), key a ha, by rw [key b hb, hext]⟩
  · decide

/-- C8, witness: `FILE.MD` and `file.md` receive the same icon, and the
lowercase `makefile` does not trigger the `Makefile` exact rule but goes
through the extension lookup (and, having no extension, gets the fallback
icon, which differs from the `Makefile` icon). -/
theorem C8_case_sensitivity_witness :
    (∃ ic, getFileNameWithIcon ⟨"FILE.MD", false⟩ = ic ++ "FILE.MD" ∧
      getFileNameWithIcon ⟨"file.md", false⟩ = ic ++ "file.md") ∧
    getFileNameWithIcon ⟨"makefile", false⟩ =
      getIcon (goToLower (goExt "makefile")) ++ "makefile" := by
  refine ⟨(C8_case_sensitivity "FILE.MD" "file.md").2.1
    (by decide) (by decide) (by decide), ?_⟩
  exact (C8_case_sensitivity "makefile" "x").1 (by decide)

/-- C9: when stat succeeds, the entry renders its full detail line whatever
the identity lookups returned (their failure is never fatal), and a failed
owner lookup renders the owner field as the numeric uid in decimal, just as
a failed group lookup renders the group field as the numeric gid in
decimal. -/
theorem C9_owner_fallback :
    ∀ (e : EntryData) (st : StatInfo),
      e.info = .ok st →
      printDetailedEntry e =
        permString e st ++ " " ++ toString st.nlink ++ " " ++ ownerField st
          ++ " " ++ groupField st ++ " " ++ pad4 st.size ++ " "
          ++ renderedTime st ++ " " ++ getFileNameWithIcon ⟨e.name, e.isDir⟩ ∧
      (st.userName = none → ownerField st = toString st.uid) ∧
      (st.groupName = none → groupField st = toString st.gid) := by
  intro e st h
  refine ⟨?_, ?_, ?_⟩
  · unfold printDetailedEntry
    rw [h]
  · intro hu
    unfold ownerField
    rw [hu]
  · intro hg
    unfold groupField
    rw [hg]

/-- C9, witness: a file owned by the unresolvable user id 9999 and group id
9999 renders a complete detail line whose owner field and group field are
both the literal string `9999`. -/
theorem C9_owner_fallback_witness :
    printDetailedEntry c9Entry =
      permString c9Entry c9Stat ++ " " ++ toString c9Stat.nlink ++ " "
        ++ ownerField c9Stat ++ " " ++ groupField c9Stat ++ " "
        ++ pad4 c9Stat.size ++ " " ++ renderedTime c9Stat ++ " "
        ++ getFileNameWithIcon ⟨c9Entry.name, c9Entry.isDir⟩ ∧
    ownerField c9Stat = "9999" ∧
    groupField c9Stat = "9999" := by
  have h := C9_owner_fallback c9Entry c9Stat rfl
  exact ⟨h.1, (h.2.1 rfl).trans (by decide), (h.2.2 rfl).trans (by decide)⟩

/-- C10: an empty listing in compact mode prints nothing at all, and the
column-width divisor is the maximal name length plus two, hence at least
two and never zero. -/
theorem C10_empty_listing :
    ∀ (probe : Option Nat) (names : List String) (dir : String),
      printMultiColumn [] probe = [] ∧
      (run false dir (.ok []) probe).stdout = [] ∧
      2 ≤ colWidthOf names := by
  intro probe names dir
  refine ⟨rfl, rfl, ?_⟩
  unfold colWidthOf
  omega

end LsTool
